import Mathlib

/-!
Verification development for the shopgoodwill-scripts repository.

The Python sources (bid_sniper.py, shopgoodwill.py) are shallowly embedded
below: pure fragments become Lean functions over Int/Nat/Rat/String, the
stateful pieces (outage tracker, favorites cache, scheduler poll loop) become
explicit state-passing functions, and remote calls are represented by
explicit inputs (fetch results) and outputs (event lists).  Time is carried
as integer seconds (microseconds are modelled separately where the code
manipulates them).  Python floats are modelled as rationals; every numeric
literal the claims touch is exactly representable.
-/

namespace SGW

/-! ## Python value helpers

These model the small pieces of Python semantics the embedded code relies
on: truthiness, `float(...)` casts of note values, and `repr` of the floats
that appear in log f-strings. -/

/-- Digits of a character list folded into a natural number (caller checks
that all characters are digits). -/
def digitsToNat (cs : List Char) : Nat :=
  cs.foldl (fun a c => 10 * a + (c.toNat - 48)) 0

/-- Python `float(s)` on the plain decimal forms used by bid notes:
optional sign, integer digits, optional fractional digits.  Returns `none`
where Python raises `ValueError`.  The denoted rational is built with a
single `mkRat` over the concatenated digits. -/
def parsePyFloat (s : String) : Option Rat :=
  let cs := s.toList
  let (neg, body) :=
    match cs with
    | '-' :: r => (true, r)
    | '+' :: r => (false, r)
    | r => (false, r)
  let ip := body.takeWhile (fun c => c ≠ '.')
  let rest := body.drop ip.length
  let fp : Option (List Char) :=
    match rest with
    | [] => some []
    | '.' :: f => if f.contains '.' then none else some f
    | _ => none
  match fp with
  | none => none
  | some f =>
    if ip ++ f = [] then none
    else if (ip ++ f).all Char.isDigit then
      let n : Int := (digitsToNat ip * 10 ^ f.length + digitsToNat f : Nat)
      some (mkRat (if neg then -n else n) (10 ^ f.length))
    else none

/-- Decimal digits of the fraction `num/den` (with `num < den`),
fuel-bounded; stops when the remainder vanishes. -/
def fracDigits (num den : Nat) : Nat → String
  | 0 => ""
  | Nat.succ fuel =>
    if num = 0 then ""
    else toString (num * 10 / den) ++ fracDigits (num * 10 % den) den fuel

/-- Python `repr`/f-string rendering of a non-negative float with a short
terminating decimal expansion (e.g. `50.0`, `12.5`), as used in the bid
sniper's log messages. -/
def pyFloatRepr (q : Rat) : String :=
  let ip := q.num / (q.den : Int)
  let rem := (q.num % (q.den : Int)).toNat
  if rem = 0 then toString ip ++ ".0"
  else toString ip ++ "." ++ fracDigits rem q.den 17

/-! ## Outage tracker — `BidSniper.outage_check_hook` (bid_sniper.py:55-81)

State is `outage_start_time : Option Int` (UTC seconds).  The hook observes
one HTTP status code at a time; log emissions are returned as events. -/

/-- Signals emitted by the outage tracker's logger. -/
inductive OutEvent where
  | degraded (status : Nat) (t : Int)
  | recovered (elapsed : Int)
deriving DecidableEq

/-- One observation step of `outage_check_hook`: `status` in `range(500,600)`
opens the window (once); any other status closes an open window and reports
elapsed time.  (The trailing `raise_for_status()` does not touch this
state.) -/
def outage_check_hook (outage_start_time : Option Int) (status : Nat) (now : Int) :
    Option Int × List OutEvent :=
  if 500 ≤ status ∧ status < 600 then
    match outage_start_time with
    | none => (some now, [OutEvent.degraded status now])
    | some s => (some s, [])
  else
    match outage_start_time with
    | some s => (none, [OutEvent.recovered (now - s)])
    | none => (none, [])

/-- Fold of `outage_check_hook` over a sequence of observed
`(status, time)` pairs, accumulating emitted events. -/
def runOutageHook (st : Option Int) : List (Nat × Int) → Option Int × List OutEvent
  | [] => (st, [])
  | (s, t) :: rest =>
    let (st', ev) := outage_check_hook st s t
    let (st'', evs) := runOutageHook st' rest
    (st'', ev ++ evs)

/-! ## Favorites cache — `BidSniper.update_favorites_cache` (bid_sniper.py:182-207)

The cache holds `last_updated` (UTC seconds) and the favorites map.  The
staleness test in the source is
`(now - last_updated).seconds > max_cache_time`: crucially `.seconds` is the
sub-day component of a Python timedelta, modelled by `% 86400`. -/

/-- Raw favorite entry as consumed by `place_bid` (title, sellerId, notes). -/
structure BidFavorite where
  title : String
  sellerId : Int
  notes : Option String
deriving DecidableEq

/-- Favorites-cache state. -/
structure FavCache where
  last_updated : Int
  favorites : List (Int × BidFavorite)
deriving DecidableEq

/-- Python `timedelta.seconds` for a delta of `total` whole seconds: the
days component is stored separately, so this is the sub-day remainder. -/
def timedelta_seconds (total : Int) : Int := total % 86400

/-- One call of `update_favorites_cache`.  `fetch` is the outcome the remote
`get_favorites()` call would have; the returned Bool records whether the
remote fetch was performed at all.  On a failed fetch the stale snapshot is
retained. -/
def update_favorites_cache (cache : FavCache) (now : Int)
    (fetch : Except Unit (List (Int × BidFavorite))) (max_cache_time : Int) :
    FavCache × Bool :=
  if timedelta_seconds (now - cache.last_updated) > max_cache_time then
    match fetch with
    | .ok favs => ({ last_updated := now, favorites := favs }, true)
    | .error _ => (cache, true)
  else
    (cache, false)

/-! ## Bid action — `BidSniper.place_bid` (bid_sniper.py:280-368)

The coroutine re-reads the (already force-refreshed) favorites cache, parses
the favorite's note as JSON, extracts and float-casts `max_bid`, optionally
performs the friend-list check via `get_item_info`, and finally submits the
bid with `favorite["sellerId"]` and `quantity=1`.  Remote interactions and
log lines are recorded as an `Event` list; the outcomes of the two remote
calls the coroutine may make are inputs of the model (`item_info`,
`bid_result`).  The stdlib JSON decoder is an external collaborator and is
passed in as `json_loads`. -/

/-- Value of a JSON object field, as produced by `json.loads`. -/
inductive PyVal where
  | none
  | num (q : Rat)
  | str (s : String)
deriving DecidableEq

/-- Python truthiness on the values a `max_bid` field can hold. -/
def pyTruthy : PyVal → Bool
  | PyVal.none => false
  | PyVal.num q => decide (q ≠ 0)
  | PyVal.str s => decide (s ≠ "")

/-- Python `float(...)` on a JSON field value; `none` where `float` raises
`ValueError`.  (The `PyVal.none` case is unreachable in `place_bid`: it is
filtered out by the truthiness check first.) -/
def pyFloatOfVal : PyVal → Option Rat
  | PyVal.num q => some q
  | PyVal.str s => parsePyFloat s
  | PyVal.none => none

/-- Rendering of a JSON field value inside an f-string. -/
def pyValStr : PyVal → String
  | PyVal.num q => pyFloatRepr q
  | PyVal.str s => s
  | PyVal.none => "None"

/-- One entry of `item_info["bidHistory"]["bidSummary"]`. -/
structure BidderEntry where
  bidderName : String
deriving DecidableEq

/-- Slice of the item-detail payload `place_bid` can touch.  The payload
also carries the item's seller id and current minimum acceptable bid, but
`place_bid` reads only `bidHistory.bidSummary`. -/
structure ItemDetail where
  bidSummary : List BidderEntry
  sellerId : Int
  minimumBid : Rat
deriving DecidableEq

/-- Python exception, as far as the log messages need it. -/
structure PyExc where
  name : String
  text : String
deriving DecidableEq

/-- Ambient state and remote-call outcomes for one `place_bid` run. -/
structure BidEnv where
  favorites : List (Int × BidFavorite)
  friend_list : List String
  item_info : Except PyExc ItemDetail
  dry_run : Bool
  bid_result : Except String Unit

/-- Observable actions of one `place_bid` run. -/
inductive Event where
  | getItemInfo (itemId : Int)
  | placeBid (itemId : Int) (bidAmount : Rat) (sellerId : Int) (quantity : Nat)
  | logError (msg : String)
  | logInfo (msg : String)
  | logWarning (msg : String)
deriving DecidableEq

/-- Python `dict.get(k, None)`. -/
def dictGet (d : List (String × PyVal)) (k : String) : PyVal :=
  match d.lookup k with
  | some v => v
  | none => PyVal.none

/-- Literal (non-f-string) message logged on a friend-list hit; the braces
of the source string are rendered with hex escapes. -/
def friendCancelMsg : String :=
  "Canceling bid due to friendship for item \x27\x7bfavorite[\x27title\x27]\x7d\x27 - current high bidder \x7bbidder_name\x7d"

/-- Embedding of `BidSniper.place_bid` for item `item_id`.  `json_loads`
models `json.loads`; `.error` is `JSONDecodeError`. -/
def place_bid (json_loads : String → Except Unit (List (String × PyVal)))
    (env : BidEnv) (item_id : Int) : List Event :=
  match env.favorites.lookup item_id with
  | none => []
  | some favorite =>
    match favorite.notes with
    | none => []
    | some notes =>
      if notes = "" then []
      else
        match json_loads notes with
        | .error _ => []
        | .ok notes_js =>
          let max_bid_val := dictGet notes_js "max_bid"
          if pyTruthy max_bid_val then
            match pyFloatOfVal max_bid_val with
            | none =>
              [Event.logError
                ("ValueError casting max_bid value \x27" ++ pyValStr max_bid_val ++ "\x27 as float")]
            | some max_bid =>
              let friendStep : List Event × Bool :=
                if env.friend_list ≠ [] then
                  match env.item_info with
                  | .ok item_info =>
                    match item_info.bidSummary with
                    | [] => ([Event.getItemInfo item_id], false)
                    | top :: _ =>
                      if top.bidderName ∈ env.friend_list then
                        ([Event.getItemInfo item_id, Event.logInfo friendCancelMsg], true)
                      else
                        ([Event.getItemInfo item_id], false)
                  | .error e =>
                    ([Event.getItemInfo item_id,
                      Event.logError
                        (e.name ++ " getting info for item ID \x27" ++ toString item_id ++
                          " - " ++ e.text ++ " - continuing")], false)
                else ([], false)
              if friendStep.2 then friendStep.1
              else
                friendStep.1 ++
                  (if env.dry_run then
                    [Event.logWarning
                      ("DRY-RUN: Placing bid on \x27" ++ favorite.title ++ "\x27 for " ++
                        pyFloatRepr max_bid)]
                  else
                    match env.bid_result with
                    | .error he =>
                      [Event.placeBid item_id max_bid favorite.sellerId 1,
                       Event.logError
                         ("HTTPError placing bid on \x27" ++ favorite.title ++ "\x27 - " ++ he)]
                    | .ok _ =>
                      [Event.placeBid item_id max_bid favorite.sellerId 1,
                       Event.logWarning
                         ("Placing bid on \x27" ++ favorite.title ++ "\x27 for " ++
                           pyFloatRepr max_bid)])
          else []

/-- Number of `placeBid` events in a run. -/
def placeBidCount (l : List Event) : Nat :=
  l.countP fun e =>
    match e with
    | Event.placeBid _ _ _ _ => true
    | _ => false

/-- Body of the `PlaceBid` POST built by `Shopgoodwill.place_bid`
(shopgoodwill.py:316-341): the amount is rendered with two decimals. -/
structure BidJson where
  itemId : Int
  bidAmount : String
  sellerId : Int
  quantity : Nat
deriving DecidableEq

/-- Python `"%.2f" % q` for the exact non-negative cent amounts used here. -/
def formatTwoDecimals (q : Rat) : String :=
  let cents := q.num * 100 / (q.den : Int)
  let frac := (cents % 100).toNat
  toString (cents / 100) ++ "." ++ (if frac < 10 then "0" else "") ++ toString frac

/-- Embedding of `Shopgoodwill.place_bid`'s request payload. -/
def sgw_place_bid_json (item_id : Int) (bid_amount : Rat) (seller_id : Int)
    (quantity : Nat) : BidJson :=
  { itemId := item_id
    bidAmount := formatTwoDecimals bid_amount
    sellerId := seller_id
    quantity := quantity }

/-! ## Scheduler — `BidSniper.main_loop` (bid_sniper.py:380-462)

Times are integer instants (seconds).  `min_scheduling_timedelta` follows
the source literally: `sorted(alert_time_deltas + [bid_time_delta])[::-1][0]`,
i.e. sort ascending, reverse, take the first element.  A poll walks the
favorites snapshot, skips item ids already in `scheduled_tasks`, applies the
lookahead guard, dispatches alert tasks (skipping past-due ones), always
dispatches one bid task, appends the id to `scheduled_tasks`, and finally
applies the default-note branch. -/

/-- Configuration fields of the bid sniper that the poll loop reads. -/
structure SniperConfig where
  alert_time_deltas : List Int
  bid_time_delta : Int
  refresh_seconds : Int
  default_note : Option String

/-- One favorites-cache entry as seen by the poll loop, with the end time
already parsed to an instant (parsing itself is modelled by
`ingest_end_time` below). -/
structure FavEntry where
  itemId : Int
  endTime : Int
  notes : Option String

/-- Actions the poll loop performs for an entry: deferred alert and bid
tasks (with their computed execution instants) and the default-note remote
call. -/
inductive Effect where
  | alert (itemId : Int) (fireTime : Int)
  | bid (itemId : Int) (fireTime : Int)
  | setNote (itemId : Int) (note : String)
deriving DecidableEq

/-- Source line 388-390: `sorted(self.alert_time_deltas + [self.bid_time_delta])[::-1][0]`. -/
def min_scheduling_timedelta (alert_time_deltas : List Int) (bid_time_delta : Int) : Int :=
  ((List.insertionSort (· ≤ ·) (alert_time_deltas ++ [bid_time_delta])).reverse).headD 0

/-- Lookahead guard, source lines 422-424:
`(end_time - min_scheduling_timedelta) <= now + timedelta(seconds=refresh_seconds * 3)`. -/
def scheduling_guard (cfg : SniperConfig) (now endTime : Int) : Bool :=
  decide (endTime - min_scheduling_timedelta cfg.alert_time_deltas cfg.bid_time_delta ≤
    now + 3 * cfg.refresh_seconds)

/-- Truthiness of `favorite_info.get("notes", "")`. -/
def notesTruthy : Option String → Bool
  | none => false
  | some s => decide (s ≠ "")

/-- Default-note branch, source lines 457-460. -/
def default_note_effects (cfg : SniperConfig) (f : FavEntry) : List Effect :=
  match cfg.default_note with
  | some dn => if dn ≠ "" ∧ notesTruthy f.notes = false then [Effect.setNote f.itemId dn] else []
  | none => []

/-- Tasks dispatched for one entry that passed the guard, source lines
426-448: one alert task per configured delta whose execution instant is not
in the past, then exactly one bid task (dispatched unconditionally). -/
def schedule_item_effects (cfg : SniperConfig) (now : Int) (f : FavEntry) : List Effect :=
  ((cfg.alert_time_deltas.filter fun d => !decide (f.endTime - d < now)).map
      fun d => Effect.alert f.itemId (f.endTime - d)) ++
    [Effect.bid f.itemId (f.endTime - cfg.bid_time_delta)]

/-- One pass of the `for item_id, favorite_info in ...favorites.items()`
loop, threading `scheduled_tasks` (a set, modelled as a duplicate-free-by-
construction list) and collecting effects. -/
def pollOnce (cfg : SniperConfig) (now : Int) :
    List FavEntry → List Int → List Int × List Effect
  | [], scheduled_tasks => (scheduled_tasks, [])
  | f :: rest, scheduled_tasks =>
    if f.itemId ∈ scheduled_tasks then pollOnce cfg now rest scheduled_tasks
    else if scheduling_guard cfg now f.endTime then
      ((pollOnce cfg now rest (scheduled_tasks ++ [f.itemId])).1,
        schedule_item_effects cfg now f ++ default_note_effects cfg f ++
          (pollOnce cfg now rest (scheduled_tasks ++ [f.itemId])).2)
    else
      ((pollOnce cfg now rest scheduled_tasks).1,
        default_note_effects cfg f ++ (pollOnce cfg now rest scheduled_tasks).2)

/-- Iterated polls of `main_loop`: each element of `polls` is the pair of
the poll's `now` and the favorites snapshot the cache holds then. -/
def runPolls (cfg : SniperConfig) :
    List (Int × List FavEntry) → List Int → List Int × List Effect
  | [], scheduled_tasks => (scheduled_tasks, [])
  | (now, favs) :: rest, scheduled_tasks =>
    ((runPolls cfg rest (pollOnce cfg now favs scheduled_tasks).1).1,
      (pollOnce cfg now favs scheduled_tasks).2 ++
        (runPolls cfg rest (pollOnce cfg now favs scheduled_tasks).1).2)

/-- Sleep amount requested by `schedule_task` (bid_sniper.py:243-244):
`(execution_datetime - now).total_seconds()`. -/
def schedule_task_sleep (now execution_datetime : Int) : Int :=
  execution_datetime - now

/-- Instant at which a task dispatched by `schedule_task` actually runs:
`asyncio.sleep` treats a negative delay as zero, so a past-due task fires
immediately. -/
def task_fire_time (now execution_datetime : Int) : Int :=
  now + max (schedule_task_sleep now execution_datetime) 0

/-- Number of bid tasks for item `i` in an effect list. -/
def bidCount (i : Int) (l : List Effect) : Nat :=
  l.countP fun t =>
    match t with
    | Effect.bid j _ => j == i
    | _ => false

/-- Number of alert tasks for item `i` in an effect list. -/
def alertCount (i : Int) (l : List Effect) : Nat :=
  l.countP fun t =>
    match t with
    | Effect.alert j _ => j == i
    | _ => false

/-- Largest element of a list of Ints (the value `sorted(..)[::-1][0]`
denotes for a nonempty list). -/
def listMax : List Int → Int
  | [] => 0
  | [x] => x
  | x :: y :: rest => max x (listMax (y :: rest))

/-! ## End-time ingestion — `main_loop` lines 403-418 and
`Shopgoodwill.convert_timestamp_to_datetime` (shopgoodwill.py:92-114)

The marketplace reports `endTime` strings like `2025-05-01T22:09:00` or
`2025-04-29T23:00:17.45` (US/Pacific wall time).  `main_loop` parses them
with `strptime` — appending `.%f` to the format exactly when the string
contains a dot — then reinterprets the wall time as `US/Pacific` and
converts to UTC.  A timestamp is `secs` since the epoch plus a `micros`
component.  Time-zone offsets are whole seconds, so the conversion is a
shift of `secs` by the zone's UTC offset (passed in as `utcoffset`, since
the zoneinfo database is an external collaborator). -/

/-- Instant with an explicit sub-second component. -/
structure DateTime where
  secs : Int
  micros : Nat
deriving DecidableEq

/-- Option-valued digit-string parse. -/
def parseDigits (cs : List Char) : Option Nat :=
  if cs.all Char.isDigit then some (digitsToNat cs) else none

/-- Days since 1970-01-01 of a civil date (Howard Hinnant's
`days_from_civil`, with truncating integer division as in C++/Lean). -/
def civilDays (y m d : Int) : Int :=
  let y' := if m ≤ 2 then y - 1 else y
  let era := (if 0 ≤ y' then y' else y' - 399) / 400
  let yoe := y' - era * 400
  let mp := (m + 9) % 12
  let doy := (153 * mp + 2) / 5 + d - 1
  let doe := yoe * 365 + yoe / 4 - yoe / 100 + doy
  era * 146097 + doe - 719468

/-- Splitting of a character list at `'.'` separators, as `str.split(".")`
partitions the timestamp string. -/
def splitOnDot : List Char → List (List Char)
  | [] => [[]]
  | c :: rest =>
    match splitOnDot rest with
    | [] => [[]]
    | g :: gs => if c = '.' then [] :: g :: gs else (c :: g) :: gs

/-- Epoch seconds of a `"%Y-%m-%dT%H:%M:%S"` wall-clock reading (the shape
`strptime` accepts for the bid sniper's `date_format`). -/
def parseWallSeconds (cs : List Char) : Option Int :=
  match cs with
  | [y1, y2, y3, y4, c1, m1, m2, c2, d1, d2, ct, h1, h2, c3, n1, n2, c4, s1, s2] =>
    if c1 = '-' ∧ c2 = '-' ∧ ct = 'T' ∧ c3 = ':' ∧ c4 = ':' then
      match parseDigits [y1, y2, y3, y4], parseDigits [m1, m2], parseDigits [d1, d2],
          parseDigits [h1, h2], parseDigits [n1, n2], parseDigits [s1, s2] with
      | some y, some mo, some dy, some h, some mi, some se =>
        if 1 ≤ mo ∧ mo ≤ 12 ∧ 1 ≤ dy ∧ dy ≤ 31 ∧ h ≤ 23 ∧ mi ≤ 59 ∧ se ≤ 61 then
          some (civilDays y mo dy * 86400 + (h * 3600 + mi * 60 + se : Nat))
        else none
      | _, _, _, _, _, _ => none
    else none
  | _ => none

/-- Microseconds denoted by a `%f` field: 1 to 6 digits, zero-extended on
the right. -/
def parseFraction (cs : List Char) : Option Nat :=
  if 1 ≤ cs.length ∧ cs.length ≤ 6 then
    (parseDigits cs).map (· * 10 ^ (6 - cs.length))
  else none

/-- Wall seconds and microseconds denoted by an `endTime` string under the
format `main_loop` builds: `"%Y-%m-%dT%H:%M:%S"`, plus `".%f"` exactly when
the string contains a dot. -/
def parse_end_time (s : String) : Option (Int × Nat) :=
  let cs := s.toList
  if cs.contains '.' then
    match splitOnDot cs with
    | [w, f] =>
      match parseWallSeconds w, parseFraction f with
      | some ws, some mi => some (ws, mi)
      | _, _ => none
    | _ => none
  else
    (parseWallSeconds cs).map (fun ws => (ws, 0))

/-- End-time ingestion of `main_loop` lines 406-418:
`strptime(...).replace(tzinfo=ZoneInfo("US/Pacific")).astimezone(ZoneInfo("Etc/UTC"))`.
`utcoffset` gives US/Pacific's UTC offset in seconds at a given wall time
(e.g. `-25200` during daylight saving). -/
def ingest_end_time (utcoffset : Int → Int) (s : String) : Option DateTime :=
  (parse_end_time s).map fun p => { secs := p.1 - utcoffset p.1, micros := p.2 }

/-- Embedding of `Shopgoodwill.convert_timestamp_to_datetime`: truncate at
the first dot when one is present, then `fromisoformat` (on the second-
precision shape used here), reinterpret as US/Pacific and convert to UTC. -/
def convert_timestamp_to_datetime (utcoffset : Int → Int) (s : String) : Option DateTime :=
  let cs := s.toList
  let cs' := if cs.contains '.' then cs.takeWhile (· ≠ '.') else cs
  (parseWallSeconds cs').map fun ws => { secs := ws - utcoffset ws, micros := 0 }

/-! ## Credential obfuscation — `Shopgoodwill._encrypt_login_value`
(shopgoodwill.py:116-136, identically shopgoodwill/__init__.py:138-158)

PKCS#7 padding, AES-CBC under the fixed class constants
`ENCRYPTION_INFO` (the 32-byte key and the 16-byte IV `b"0000000000000000"`,
i.e. sixteen ASCII zero characters), base64, then `urllib.parse.quote`.
The AES block permutation itself is an external primitive and enters as the
parameter `aes_block` (key → block → cipher block).  A randomized
implementation would draw its IV from an entropy source, so `AES.new` is
modelled as receiving an entropy stream that it consults only when no IV is
supplied — which lets purity/determinism be stated rather than assumed. -/

/-- Bytes of `ENCRYPTION_INFO["key"]`. -/
def ENCRYPTION_INFO_key : List Nat :=
  "6696D2E6F042FEC4D6E3F32AD541143B".toList.map Char.toNat

/-- Bytes of `ENCRYPTION_INFO["iv"]` (sixteen ASCII `0` characters). -/
def ENCRYPTION_INFO_iv : List Nat :=
  "0000000000000000".toList.map Char.toNat

/-- Value of `ENCRYPTION_INFO["block_size"]`. -/
def ENCRYPTION_INFO_block_size : Nat := 16

/-- `Crypto.Util.Padding.pad` with PKCS#7 style. -/
def Crypto_pad (data : List Nat) (block_size : Nat) : List Nat :=
  let padLen := block_size - data.length % block_size
  data ++ List.replicate padLen padLen

/-- CBC cipher object state produced by `AES.new`. -/
structure AesCbcCipher where
  key : List Nat
  iv : List Nat

/-- Model of `AES.new(key, AES.MODE_CBC, iv?)`: pycryptodome draws a random
IV from the system entropy stream exactly when none is passed. -/
def AES_new (key : List Nat) (iv : Option (List Nat)) (entropy : List Nat) : AesCbcCipher :=
  { key := key, iv := iv.getD (entropy.take 16) }

/-- CBC chaining of a block permutation over 16-byte blocks. -/
def cbc_encrypt (aes : List Nat → List Nat) (prev : List Nat) (data : List Nat) : List Nat :=
  if h : data = [] then []
  else
    let c := aes (List.zipWith Nat.xor prev (data.take 16))
    c ++ cbc_encrypt aes c (data.drop 16)
termination_by data.length
decreasing_by
  have hl : 0 < data.length := List.length_pos.mpr h
  simp only [List.length_drop]
  omega

/-- Standard base64 alphabet as byte values. -/
def b64alphabet : List Nat :=
  "ABCDEFGHIJKLMNOPQRSTUVWXYZabcdefghijklmnopqrstuvwxyz0123456789+/".toList.map Char.toNat

/-- Character of the base64 alphabet at a 6-bit index. -/
def b64char (n : Nat) : Nat := b64alphabet.getD n 65

/-- `base64.b64encode` on a byte list, producing the encoded bytes
(with `=` padding, byte 61). -/
def base64_b64encode : List Nat → List Nat
  | a :: b :: c :: rest =>
    let w := a * 65536 + b * 256 + c
    b64char (w / 262144) :: b64char (w / 4096 % 64) :: b64char (w / 64 % 64) ::
      b64char (w % 64) :: base64_b64encode rest
  | [a, b] =>
    let w := a * 65536 + b * 256
    [b64char (w / 262144), b64char (w / 4096 % 64), b64char (w / 64 % 64), 61]
  | [a] =>
    let w := a * 65536
    [b64char (w / 262144), b64char (w / 4096 % 64), 61, 61]
  | [] => []

/-- Hex digit character (uppercase) of a value below 16. -/
def hexDigit (n : Nat) : Char :=
  if n < 10 then Char.ofNat (48 + n) else Char.ofNat (55 + n)

/-- Percent-encoding of one byte under `urllib.parse.quote`'s default rules
(unreserved characters and the default-safe `/` pass through). -/
def quoteByteStr (b : Nat) : String :=
  if (65 ≤ b ∧ b ≤ 90) ∨ (97 ≤ b ∧ b ≤ 122) ∨ (48 ≤ b ∧ b ≤ 57) ∨
      b = 95 ∨ b = 46 ∨ b = 45 ∨ b = 126 ∨ b = 47 then
    String.singleton (Char.ofNat b)
  else
    String.mk ['%', hexDigit (b / 16), hexDigit (b % 16)]

/-- `urllib.parse.quote` over a byte list. -/
def urllib_parse_quote (bs : List Nat) : String :=
  String.join (bs.map quoteByteStr)

/-- Embedding of `Shopgoodwill._encrypt_login_value`.  `aes_block` is the
AES block permutation keyed by its first argument; `entropy` is the ambient
randomness a randomized implementation would consume. -/
def encrypt_login_value (aes_block : List Nat → List Nat → List Nat)
    (plaintext : String) (entropy : List Nat) : String :=
  let padded := Crypto_pad (plaintext.toUTF8.toList.map UInt8.toNat) ENCRYPTION_INFO_block_size
  let cipher := AES_new ENCRYPTION_INFO_key (some ENCRYPTION_INFO_iv) entropy
  urllib_parse_quote (base64_b64encode (cbc_encrypt (aes_block cipher.key) cipher.iv padded))

/-! ## Concrete instances used by closed theorems and witnesses -/

/-- JSON decoder behaving like `json.loads` on the single note string the
concrete scenarios use. -/
def jsonLoadsNotes (note : String) (fields : List (String × PyVal)) :
    String → Except Unit (List (String × PyVal)) :=
  fun s => if s = note then Except.ok fields else Except.error ()

/-- Note text of the shortfall scenario. -/
def noteA : String := "\x7b\"max_bid\": \"12.50\"\x7d"

/-- Decoder for `noteA`. -/
def jlA : String → Except Unit (List (String × PyVal)) :=
  jsonLoadsNotes noteA [("max_bid", PyVal.str "12.50")]

/-- Environment of the shortfall scenario: item 42 favorited with a
`max_bid` of `12.50`, no friend list, and an item detail carrying an
arbitrary current minimum acceptable bid. -/
def envA (minBid : Rat) : BidEnv :=
  { favorites := [(42, { title := "Lamp", sellerId := 7, notes := some noteA })]
    friend_list := []
    item_info := Except.ok { bidSummary := [], sellerId := 999, minimumBid := minBid }
    dry_run := false
    bid_result := Except.ok () }

/-- Note text of the end-to-end submission scenario. -/
def noteB : String := "\x7b\"max_bid\": 50\x7d"

/-- Decoder for `noteB`. -/
def jlB : String → Except Unit (List (String × PyVal)) :=
  jsonLoadsNotes noteB [("max_bid", PyVal.num 50)]

/-- Environment of the end-to-end submission scenario (no friend list). -/
def envB : BidEnv :=
  { favorites := [(42, { title := "Widget", sellerId := 999, notes := some noteB })]
    friend_list := []
    item_info := Except.ok { bidSummary := [], sellerId := 999, minimumBid := 40 }
    dry_run := false
    bid_result := Except.ok () }

/-- Variant of the submission scenario in which the cached favorite and the
fetched item detail disagree about the seller id, and a non-empty friend
list forces the detail fetch. -/
def envBx : BidEnv :=
  { favorites := [(42, { title := "Widget", sellerId := 7, notes := some noteB })]
    friend_list := ["zed"]
    item_info := Except.ok { bidSummary := [{ bidderName := "alice" }], sellerId := 999, minimumBid := 40 }
    dry_run := false
    bid_result := Except.ok () }

/-- Environment in which the friend list is non-empty and the item-detail
fetch fails. -/
def envC : BidEnv :=
  { favorites := [(5, { title := "Chair", sellerId := 11, notes := some noteB })]
    friend_list := ["pat"]
    item_info := Except.error { name := "ConnectionError", text := "boom" }
    dry_run := false
    bid_result := Except.ok () }

/-- Scheduler configuration used by concrete witnesses. -/
def cfgA : SniperConfig :=
  { alert_time_deltas := [300, 60], bid_time_delta := 30, refresh_seconds := 300
    default_note := none }

/-- Two polls that both see the same favorite. -/
def pollsA : List (Int × List FavEntry) :=
  [(0, [{ itemId := 1, endTime := 800, notes := none }]),
   (300, [{ itemId := 1, endTime := 800, notes := none }])]

/-- Configuration of the past-due-task witness. -/
def cfgB : SniperConfig :=
  { alert_time_deltas := [100, 10], bid_time_delta := 30, refresh_seconds := 300
    default_note := none }

/-- Entry whose 100-second alert and bid instants are already past. -/
def favB : FavEntry := { itemId := 1, endTime := 20, notes := none }

/-! ## Theorems -/

/-- C6: a 5xx status with no open outage window opens one and emits exactly
the one degraded event; further 5xx statuses while the window is open emit
nothing; the first non-5xx status closes the window and emits exactly one
recovered event whose elapsed duration is the recovery time minus the
window's start; in particular statuses 503, 503, 200 at t0, t1, t2 yield
one degraded event at t0 and one recovered event at t2 with elapsed
t2 - t0. -/
theorem C6_outage_window :
    (∀ (s : Nat) (t : Int), 500 ≤ s → s < 600 →
      outage_check_hook none s t = (some t, [OutEvent.degraded s t])) ∧
    (∀ (s : Nat) (t u : Int), 500 ≤ s → s < 600 →
      outage_check_hook (some u) s t = (some u, [])) ∧
    (∀ (s : Nat) (t u : Int), ¬(500 ≤ s ∧ s < 600) →
      outage_check_hook (some u) s t = (none, [OutEvent.recovered (t - u)])) ∧
    (∀ t0 t1 t2 : Int, runOutageHook none [(503, t0), (503, t1), (200, t2)] =
      (none, [OutEvent.degraded 503 t0, OutEvent.recovered (t2 - t0)])) := by
  refine ⟨?_, ?_, ?_, ?_⟩
  · intro s t h1 h2
    simp [outage_check_hook, h1, h2]
  · intro s t u h1 h2
    simp [outage_check_hook, h1, h2]
  · intro s t u h
    simp [outage_check_hook, h]
  · intro t0 t1 t2
    simp [runOutageHook, outage_check_hook]

/-- Witness for C6 at statuses 503, 503, 200 and times 5, 7, 11. -/
theorem C6_outage_window_witness :
    outage_check_hook none 503 5 = (some 5, [OutEvent.degraded 503 5]) ∧
    outage_check_hook (some 5) 503 7 = (some 5, []) ∧
    outage_check_hook (some 5) 200 11 = (none, [OutEvent.recovered (11 - 5)]) ∧
    runOutageHook none [(503, 5), (503, 7), (200, 11)] =
      (none, [OutEvent.degraded 503 5, OutEvent.recovered (11 - 5)]) :=
  ⟨C6_outage_window.1 503 5 (by decide) (by decide),
   C6_outage_window.2.1 503 7 5 (by decide) (by decide),
   C6_outage_window.2.2.1 200 11 5 (by decide),
   C6_outage_window.2.2.2 5 7 11⟩

/-- C3: the staleness test of `update_favorites_cache` compares
`(now - last_updated).seconds` — the sub-day component — against the bound.
Within a day it behaves as claimed (gap of 50 s with bound 60 s returns the
memoized snapshot without a fetch; gap of 61 s fetches), but a gap of one
day plus 10 seconds (86410 s > 60 s) performs no fetch: the wrap-around
contradicts the claim and the function's own docstring. -/
theorem C3_cache_seconds_wraparound :
    update_favorites_cache
        { last_updated := 0, favorites := [(1, { title := "A", sellerId := 5, notes := none })] }
        50 (Except.ok []) 60 =
      ({ last_updated := 0, favorites := [(1, { title := "A", sellerId := 5, notes := none })] },
        false) ∧
    update_favorites_cache
        { last_updated := 0, favorites := [(1, { title := "A", sellerId := 5, notes := none })] }
        61 (Except.ok []) 60 =
      ({ last_updated := 61, favorites := [] }, true) ∧
    (update_favorites_cache
        { last_updated := 0, favorites := [(1, { title := "A", sellerId := 5, notes := none })] }
        86410 (Except.ok []) 60).2 = false ∧
    (86410 : Int) > 60 := by
  decide

/-- C9: the credential-obfuscation function is pure and deterministic — its
output does not depend on the ambient entropy stream, for any AES block
permutation and any plaintext, because `AES.new` is called with the fixed
class-constant key and IV; and that IV is the fixed byte string of sixteen
ASCII zero characters. -/
theorem C9_encrypt_login_value_deterministic :
    (∀ (aes_block : List Nat → List Nat → List Nat) (p : String) (e₁ e₂ : List Nat),
      encrypt_login_value aes_block p e₁ = encrypt_login_value aes_block p e₂) ∧
    ENCRYPTION_INFO_iv = List.replicate 16 48 := by
  constructor
  · intro aes_block p e₁ e₂
    rfl
  · decide

/-- C1 (code bug): with note max_bid "12.50" and a fetched minimum
acceptable bid of 15.00, `place_bid` does not abort — it submits the bid.
The run is the same for every value of the item detail's minimum bid (the
code never reads it), and 12.50 < 15.00. -/
theorem C1_bid_placed_below_minimum :
    (∀ minBid : Rat, place_bid jlA (envA minBid) 42 =
      [Event.placeBid 42 (mkRat 25 2) 7 1,
       Event.logWarning "Placing bid on \x27Lamp\x27 for 12.5"]) ∧
    mkRat 25 2 < (15 : Rat) := by
  constructor
  · intro minBid
    rfl
  · decide

/-- C7 (counterexample): the end-time string `2025-04-29T23:00:17.45` from
the source's own comment is ingested by `main_loop` with 450000 microseconds
retained, not truncated to zero. -/
theorem C7_micros_retained_counterexample :
    (ingest_end_time (fun _ => -25200) "2025-04-29T23:00:17.45").map DateTime.micros =
      some 450000 ∧
    (450000 : Nat) ≠ 0 := by
  decide

/-- C7 (amended): `main_loop`'s ingestion normalizes the parsed wall time
to UTC by the zone offset but keeps the parsed fractional-second component;
the truncating path exists only in `convert_timestamp_to_datetime`, which
always yields a zero sub-second part (and which the scheduler does not
call). -/
theorem C7_end_time_ingestion :
    (∀ (utcoffset : Int → Int) (s : String) (w : Int) (mi : Nat),
      parse_end_time s = some (w, mi) →
      ingest_end_time utcoffset s = some { secs := w - utcoffset w, micros := mi }) ∧
    (∀ (utcoffset : Int → Int) (s : String) (dt : DateTime),
      convert_timestamp_to_datetime utcoffset s = some dt → dt.micros = 0) := by
  constructor
  · intro utcoffset s w mi h
    simp only [ingest_end_time, h, Option.map_some']
  · intro utcoffset s dt h
    simp only [convert_timestamp_to_datetime] at h
    rcases Option.map_eq_some'.mp h with ⟨ws, _, hdt⟩
    rw [← hdt]

/-- Witness for C7 at the dotted timestamp and the PDT offset. -/
theorem C7_end_time_ingestion_witness :
    ingest_end_time (fun _ => -25200) "2025-04-29T23:00:17.45" =
      some { secs := 1745967617 - (-25200), micros := 450000 } ∧
    DateTime.micros
        { secs := 1745967617 - ((fun _ : Int => (-25200 : Int)) 1745967617), micros := 0 } = 0 :=
  ⟨C7_end_time_ingestion.1 (fun _ => -25200) "2025-04-29T23:00:17.45" 1745967617 450000
      (by decide),
   C7_end_time_ingestion.2 (fun _ => -25200) "2025-04-29T23:00:17.45"
      { secs := 1745967617 - ((fun _ : Int => (-25200 : Int)) 1745967617), micros := 0 }
      (by decide)⟩

/-- C4 (amended): when the bid action submits (favorite present, note
parsed to a truthy numeric max bid, no friend list, not a dry run,
submission succeeds), it calls PlaceBid exactly once, with the parsed max
bid, the seller id taken from the cached favorite entry, and quantity 1,
then logs the success message carrying the amount. -/
theorem C4_bid_submission_fields (jl : String → Except Unit (List (String × PyVal)))
    (env : BidEnv) (item_id : Int) (fav : BidFavorite) (ns : String)
    (d : List (String × PyVal)) (q : Rat)
    (h1 : env.favorites.lookup item_id = some fav)
    (h2 : fav.notes = some ns) (h3 : ns ≠ "")
    (h4 : jl ns = Except.ok d)
    (h5 : pyTruthy (dictGet d "max_bid") = true)
    (h6 : pyFloatOfVal (dictGet d "max_bid") = some q)
    (h7 : env.friend_list = [])
    (h8 : env.dry_run = false)
    (h9 : env.bid_result = Except.ok ()) :
    place_bid jl env item_id =
      [Event.placeBid item_id q fav.sellerId 1,
       Event.logWarning ("Placing bid on \x27" ++ fav.title ++ "\x27 for " ++ pyFloatRepr q)] ∧
    placeBidCount (place_bid jl env item_id) = 1 := by
  have e : place_bid jl env item_id =
      [Event.placeBid item_id q fav.sellerId 1,
       Event.logWarning ("Placing bid on \x27" ++ fav.title ++ "\x27 for " ++ pyFloatRepr q)] := by
    simp [place_bid, h1, h2, h3, h4, h5, h6, h7, h8, h9]
  refine ⟨e, ?_⟩
  rw [e]
  simp [placeBidCount, List.countP_cons]

/-- Witness for C4: item 42, note max_bid 50, cached seller id 999 — one
PlaceBid(42, 50.00, 999, 1), and the logged message contains "50"; the
request payload renders the amount as "50.00". -/
theorem C4_bid_submission_fields_witness :
    place_bid jlB envB 42 =
      [Event.placeBid 42 (50 : Rat) 999 1,
       Event.logWarning "Placing bid on \x27Widget\x27 for 50.0"] ∧
    placeBidCount (place_bid jlB envB 42) = 1 ∧
    (∃ a b : String, "Placing bid on \x27Widget\x27 for 50.0" = a ++ "50" ++ b) ∧
    sgw_place_bid_json 42 (50 : Rat) 999 1 =
      { itemId := 42, bidAmount := "50.00", sellerId := 999, quantity := 1 } := by
  have h := C4_bid_submission_fields jlB envB 42
    { title := "Widget", sellerId := 999, notes := some noteB } noteB
    [("max_bid", PyVal.num 50)] 50 rfl rfl (by decide) rfl (by decide) rfl rfl rfl rfl
  refine ⟨?_, ?_, ⟨"Placing bid on \x27Widget\x27 for ", ".0", by decide⟩, by decide⟩
  · rw [h.1]
    rfl
  · exact h.2

/-- C4 (counterexample): with the cached favorite carrying seller id 7 and
the fetched item detail carrying seller id 999, the submitted bid uses 7 —
the seller id comes from the favorites snapshot, not from the fetched item
detail as claimed. -/
theorem C4_seller_id_counterexample :
    place_bid jlB envBx 42 =
      [Event.getItemInfo 42, Event.placeBid 42 (50 : Rat) 7 1,
       Event.logWarning "Placing bid on \x27Widget\x27 for 50.0"] ∧
    Event.placeBid 42 (50 : Rat) 999 1 ∉ place_bid jlB envBx 42 := by
  decide

/-- C10: the friend-list guard fails open — with a non-empty friend list
and a failing item-detail fetch, `place_bid` logs the error and still
submits the bid; and with an empty friend list the item-detail fetch is
never performed at all. -/
theorem C10_friend_guard_fails_open :
    (∀ (jl : String → Except Unit (List (String × PyVal))) (env : BidEnv)
        (item_id : Int) (fav : BidFavorite) (ns : String)
        (d : List (String × PyVal)) (q : Rat) (e : PyExc),
      env.favorites.lookup item_id = some fav →
      fav.notes = some ns → ns ≠ "" →
      jl ns = Except.ok d →
      pyTruthy (dictGet d "max_bid") = true →
      pyFloatOfVal (dictGet d "max_bid") = some q →
      env.friend_list ≠ [] →
      env.item_info = Except.error e →
      env.dry_run = false →
      Event.logError (e.name ++ " getting info for item ID \x27" ++ toString item_id ++
          " - " ++ e.text ++ " - continuing") ∈ place_bid jl env item_id ∧
      Event.placeBid item_id q fav.sellerId 1 ∈ place_bid jl env item_id) ∧
    (∀ (jl : String → Except Unit (List (String × PyVal))) (env : BidEnv)
        (item_id j : Int), env.friend_list = [] →
      Event.getItemInfo j ∉ place_bid jl env item_id) := by
  constructor
  · intro jl env item_id fav ns d q e h1 h2 h3 h4 h5 h6 h7 h8 h9
    rcases hbr : env.bid_result with he | u
    · simp [place_bid, h1, h2, h3, h4, h5, h6, h7, h8, h9, hbr]
    · simp [place_bid, h1, h2, h3, h4, h5, h6, h7, h8, h9, hbr]
  · intro jl env item_id j h
    rcases hf : env.favorites.lookup item_id with _ | fav
    · simp [place_bid, hf]
    · rcases hn : fav.notes with _ | ns
      · simp [place_bid, hf, hn]
      · by_cases hns : ns = ""
        · simp [place_bid, hf, hn, hns]
        · rcases hj : jl ns with u | d
          · simp [place_bid, hf, hn, hns, hj]
          · by_cases ht : pyTruthy (dictGet d "max_bid") = true
            · rcases hv : pyFloatOfVal (dictGet d "max_bid") with _ | q
              · simp [place_bid, hf, hn, hns, hj, ht, hv]
              · by_cases hd : env.dry_run
                · simp [place_bid, hf, hn, hns, hj, ht, hv, h, hd]
                · rcases hbr : env.bid_result with he | u
                  · simp [place_bid, hf, hn, hns, hj, ht, hv, h, hd, hbr]
                  · simp [place_bid, hf, hn, hns, hj, ht, hv, h, hd, hbr]
            · simp [place_bid, hf, hn, hns, hj, ht]

/-- Witness for C10: a failing fetch with friend list ["pat"] still places
the bid and logs the error, and the no-friend-list environment performs no
item-detail fetch. -/
theorem C10_friend_guard_fails_open_witness :
    (Event.logError ("ConnectionError" ++ " getting info for item ID \x27" ++ toString (5 : Int) ++
        " - " ++ "boom" ++ " - continuing") ∈ place_bid jlB envC 5 ∧
      Event.placeBid 5 (50 : Rat) 11 1 ∈ place_bid jlB envC 5) ∧
    Event.getItemInfo 42 ∉ place_bid jlB envB 42 :=
  ⟨C10_friend_guard_fails_open.1 jlB envC 5
      { title := "Chair", sellerId := 11, notes := some noteB } noteB
      [("max_bid", PyVal.num 50)] 50 { name := "ConnectionError", text := "boom" }
      rfl rfl (by decide) rfl (by decide) rfl (by decide) rfl rfl,
   C10_friend_guard_fails_open.2 jlB envB 42 42 rfl⟩

/-- Helper: `getLastD` of a nonempty list ignores its default. -/
theorem getLastD_irrel : ∀ (l : List Int), l ≠ [] → ∀ a b : Int, l.getLastD a = l.getLastD b
  | [], h, _, _ => absurd rfl h
  | x :: xs, _, a, b => by rw [List.getLastD_cons, List.getLastD_cons]

/-- Helper: the head of a sorted list is at most its last element. -/
theorem head_le_getLastD : ∀ (ys : List Int) (y d : Int),
    List.Sorted (· ≤ ·) (y :: ys) → y ≤ (y :: ys).getLastD d
  | [], y, d, _ => by
    rw [List.getLastD_cons]
    exact le_refl y
  | z :: zs, y, d, h => by
    rw [List.getLastD_cons]
    have h' := List.sorted_cons.mp h
    exact le_trans (h'.1 z (List.mem_cons_self z zs)) (head_le_getLastD zs z y h'.2)

/-- Helper: last element of an ordered insertion into a sorted list. -/
theorem getLastD_orderedInsert (x : Int) :
    ∀ (s : List Int), List.Sorted (· ≤ ·) s → ∀ d : Int,
      (List.orderedInsert (· ≤ ·) x s).getLastD d = max x (s.getLastD x)
  | [], _, d => by
    simp [List.orderedInsert, List.getLastD_cons]
  | y :: ys, h, d => by
    by_cases hxy : x ≤ y
    · rw [List.orderedInsert, if_pos hxy, List.getLastD_cons, List.getLastD_cons]
      have hle : y ≤ (y :: ys).getLastD x := head_le_getLastD ys y x h
      rw [List.getLastD_cons] at hle
      exact (max_eq_right (le_trans hxy hle)).symm
    · rw [List.orderedInsert, if_neg hxy, List.getLastD_cons,
        getLastD_orderedInsert x ys (List.sorted_cons.mp h).2 y, List.getLastD_cons]
      rcases ys with _ | ⟨z, zs⟩
      · have hyx : y ≤ x := le_of_not_le hxy
        simp [max_eq_left hyx]
      · rw [getLastD_irrel (z :: zs) (by simp) x y]

/-- Helper: sorting a nonempty list yields a nonempty list. -/
theorem insertionSort_ne_nil (l : List Int) (h : l ≠ []) :
    List.insertionSort (· ≤ ·) l ≠ [] := by
  intro hs
  have hlen := (List.perm_insertionSort (· ≤ ·) l).length_eq
  rw [hs] at hlen
  exact h (List.length_eq_zero.mp hlen.symm)

/-- Helper: the last element of the ascending insertion sort is the
maximum. -/
theorem getLastD_insertionSort : ∀ (l : List Int), l ≠ [] →
    (List.insertionSort (· ≤ ·) l).getLastD 0 = listMax l
  | [], h => absurd rfl h
  | [x], _ => by
    simp [List.insertionSort, List.orderedInsert, listMax, List.getLastD_cons]
  | x :: y :: r, _ => by
    rw [List.insertionSort,
      getLastD_orderedInsert x _ (List.sorted_insertionSort _ _) 0,
      getLastD_irrel _ (insertionSort_ne_nil (y :: r) (by simp)) x 0,
      getLastD_insertionSort (y :: r) (by simp)]
    rfl

/-- Helper: the source's `sorted(...)[::-1][0]` computes the largest of the
combined offsets. -/
theorem min_scheduling_timedelta_eq_listMax (alerts : List Int) (bid : Int) :
    min_scheduling_timedelta alerts bid = listMax (alerts ++ [bid]) := by
  unfold min_scheduling_timedelta
  rw [List.headD_eq_head?, List.head?_reverse, ← List.getLastD_eq_getLast?]
  exact getLastD_insertionSort (alerts ++ [bid]) (by simp)

/-- Helper: membership in the scheduled set after one poll. -/
theorem pollOnce_mem_sched (cfg : SniperConfig) (now : Int) :
    ∀ (favs : List FavEntry) (sched : List Int) (i : Int),
      i ∈ (pollOnce cfg now favs sched).1 ↔
        i ∈ sched ∨ ∃ f, f ∈ favs ∧ f.itemId = i ∧
          scheduling_guard cfg now f.endTime = true
  | [], sched, i => by simp [pollOnce]
  | f :: rest, sched, i => by
    by_cases hmem : f.itemId ∈ sched
    · rw [pollOnce, if_pos hmem, pollOnce_mem_sched cfg now rest sched i]
      constructor
      · rintro (h | ⟨g, hg, hgi, hgg⟩)
        · exact Or.inl h
        · exact Or.inr ⟨g, List.mem_cons_of_mem f hg, hgi, hgg⟩
      · rintro (h | ⟨g, hg, hgi, hgg⟩)
        · exact Or.inl h
        · rcases List.mem_cons.mp hg with hgf | hg'
          · subst hgf
            exact Or.inl (hgi ▸ hmem)
          · exact Or.inr ⟨g, hg', hgi, hgg⟩
    · by_cases hg : scheduling_guard cfg now f.endTime = true
      · rw [pollOnce, if_neg hmem, if_pos hg]
        show i ∈ (pollOnce cfg now rest (sched ++ [f.itemId])).1 ↔ _
        rw [pollOnce_mem_sched cfg now rest (sched ++ [f.itemId]) i]
        constructor
        · rintro (h | ⟨g, hgm, hgi, hgg⟩)
          · rcases List.mem_append.mp h with h' | h'
            · exact Or.inl h'
            · exact Or.inr ⟨f, List.mem_cons_self f rest, (List.mem_singleton.mp h').symm, hg⟩
          · exact Or.inr ⟨g, List.mem_cons_of_mem f hgm, hgi, hgg⟩
        · rintro (h | ⟨g, hgm, hgi, hgg⟩)
          · exact Or.inl (List.mem_append.mpr (Or.inl h))
          · rcases List.mem_cons.mp hgm with hgf | hg'
            · subst hgf
              exact Or.inl (List.mem_append.mpr (Or.inr (by simp [hgi])))
            · exact Or.inr ⟨g, hg', hgi, hgg⟩
      · rw [pollOnce, if_neg hmem, if_neg hg]
        show i ∈ (pollOnce cfg now rest sched).1 ↔ _
        rw [pollOnce_mem_sched cfg now rest sched i]
        constructor
        · rintro (h | ⟨g, hgm, hgi, hgg⟩)
          · exact Or.inl h
          · exact Or.inr ⟨g, List.mem_cons_of_mem f hgm, hgi, hgg⟩
        · rintro (h | ⟨g, hgm, hgi, hgg⟩)
          · exact Or.inl h
          · rcases List.mem_cons.mp hgm with hgf | hg'
            · subst hgf
              exact absurd hgg hg
            · exact Or.inr ⟨g, hg', hgi, hgg⟩

/-- C2 (amended): the lookahead guard uses the LARGEST configured offset:
`sorted(alert_time_deltas + [bid_time_delta])[::-1][0]` is the maximum of
the combined offsets, and an unscheduled entry is scheduled on a poll
exactly when `endTime - maxOffset <= now + 3*refreshSeconds`. -/
theorem C2_lookahead_guard (cfg : SniperConfig) (now : Int) (favs : List FavEntry)
    (sched : List Int) (i : Int) :
    min_scheduling_timedelta cfg.alert_time_deltas cfg.bid_time_delta =
      listMax (cfg.alert_time_deltas ++ [cfg.bid_time_delta]) ∧
    (i ∈ (pollOnce cfg now favs sched).1 ↔
      i ∈ sched ∨ ∃ f, f ∈ favs ∧ f.itemId = i ∧
        f.endTime - listMax (cfg.alert_time_deltas ++ [cfg.bid_time_delta]) ≤
          now + 3 * cfg.refresh_seconds) := by
  refine ⟨min_scheduling_timedelta_eq_listMax _ _, ?_⟩
  rw [pollOnce_mem_sched]
  simp only [scheduling_guard, min_scheduling_timedelta_eq_listMax, decide_eq_true_eq]

/-- C2 (counterexample): with alert offset 60 s, bid offset 30 s and
refresh 300 s, the claimed guard (using the minimum offset, 30 s) rejects
an entry ending at t = 945 (945 - 30 > 0 + 900), yet the poll schedules
it. -/
theorem C2_lookahead_guard_counterexample :
    1 ∈ (pollOnce
        { alert_time_deltas := [60], bid_time_delta := 30, refresh_seconds := 300,
          default_note := none }
        0 [{ itemId := 1, endTime := 945, notes := none }] []).1 ∧
    ¬((945 : Int) - min 60 30 ≤ 0 + 3 * 300) := by
  decide

/-- Helper: bid-task counts add over concatenation. -/
theorem bidCount_append (i : Int) (l₁ l₂ : List Effect) :
    bidCount i (l₁ ++ l₂) = bidCount i l₁ + bidCount i l₂ :=
  List.countP_append _ _ _

/-- Helper: alert-task counts add over concatenation. -/
theorem alertCount_append (i : Int) (l₁ l₂ : List Effect) :
    alertCount i (l₁ ++ l₂) = alertCount i l₁ + alertCount i l₂ :=
  List.countP_append _ _ _

/-- Helper: one scheduling dispatch emits exactly one bid task, for its own
item. -/
theorem bidCount_schedule_item (cfg : SniperConfig) (now : Int) (f : FavEntry) (i : Int) :
    bidCount i (schedule_item_effects cfg now f) = if f.itemId = i then 1 else 0 := by
  unfold bidCount schedule_item_effects
  rw [List.countP_append, List.countP_map]
  have h0 : List.countP
      ((fun t => match t with | Effect.bid j _ => j == i | _ => false) ∘
        fun d => Effect.alert f.itemId (f.endTime - d))
      (List.filter (fun d => !decide (f.endTime - d < now)) cfg.alert_time_deltas) = 0 :=
    List.countP_eq_zero.mpr (fun a _ h => Bool.false_ne_true h)
  rw [h0]
  simp [List.countP_cons, beq_iff_eq]

/-- Helper: one scheduling dispatch emits no alert tasks for other items,
and at most one per configured offset for its own. -/
theorem alertCount_schedule_item_le (cfg : SniperConfig) (now : Int) (f : FavEntry) (i : Int) :
    alertCount i (schedule_item_effects cfg now f) ≤ cfg.alert_time_deltas.length := by
  unfold alertCount schedule_item_effects
  rw [List.countP_append, List.countP_map]
  have hb : List.countP (fun t => match t with | Effect.alert j _ => j == i | _ => false)
      [Effect.bid f.itemId (f.endTime - cfg.bid_time_delta)] = 0 := rfl
  rw [hb]
  simpa using le_trans (List.countP_le_length _) (List.length_filter_le _ _)

/-- Helper: alert tasks dispatched for a different item do not count. -/
theorem alertCount_schedule_item_ne (cfg : SniperConfig) (now : Int) (f : FavEntry) (i : Int)
    (hne : f.itemId ≠ i) : alertCount i (schedule_item_effects cfg now f) = 0 := by
  unfold alertCount schedule_item_effects
  apply List.countP_eq_zero.mpr
  intro a ha
  rcases List.mem_append.mp ha with hm | hm
  · rcases List.mem_map.mp hm with ⟨d, _, hd⟩
    rw [← hd]
    simpa using hne
  · rw [List.mem_singleton.mp hm]
    simp

/-- Helper: the default-note branch emits no bid tasks. -/
theorem bidCount_default_note (cfg : SniperConfig) (f : FavEntry) (i : Int) :
    bidCount i (default_note_effects cfg f) = 0 := by
  unfold bidCount
  apply List.countP_eq_zero.mpr
  intro a ha
  unfold default_note_effects at ha
  cases hdn : cfg.default_note with
  | none =>
    simp only [hdn] at ha
    simp at ha
  | some dn =>
    simp only [hdn] at ha
    split at ha
    · rw [List.mem_singleton.mp ha]
      exact fun h => Bool.false_ne_true h
    · simp at ha

/-- Helper: the default-note branch emits no alert tasks. -/
theorem alertCount_default_note (cfg : SniperConfig) (f : FavEntry) (i : Int) :
    alertCount i (default_note_effects cfg f) = 0 := by
  unfold alertCount
  apply List.countP_eq_zero.mpr
  intro a ha
  unfold default_note_effects at ha
  cases hdn : cfg.default_note with
  | none =>
    simp only [hdn] at ha
    simp at ha
  | some dn =>
    simp only [hdn] at ha
    split at ha
    · rw [List.mem_singleton.mp ha]
      exact fun h => Bool.false_ne_true h
    · simp at ha

/-- Helper: the scheduled set only ever grows across one poll. -/
theorem pollOnce_sched_append (cfg : SniperConfig) (now : Int) :
    ∀ (favs : List FavEntry) (sched : List Int),
      ∃ l, (pollOnce cfg now favs sched).1 = sched ++ l
  | [], sched => ⟨[], by simp [pollOnce]⟩
  | f :: rest, sched => by
    by_cases hmem : f.itemId ∈ sched
    · rw [pollOnce, if_pos hmem]
      exact pollOnce_sched_append cfg now rest sched
    · by_cases hg : scheduling_guard cfg now f.endTime = true
      · rw [pollOnce, if_neg hmem, if_pos hg]
        rcases pollOnce_sched_append cfg now rest (sched ++ [f.itemId]) with ⟨l, hl⟩
        refine ⟨f.itemId :: l, ?_⟩
        show (pollOnce cfg now rest (sched ++ [f.itemId])).1 = sched ++ f.itemId :: l
        rw [hl]
        simp
      · rw [pollOnce, if_neg hmem, if_neg hg]
        exact pollOnce_sched_append cfg now rest sched

/-- Helper: the scheduled set only ever grows across a run of polls. -/
theorem runPolls_sched_append (cfg : SniperConfig) :
    ∀ (polls : List (Int × List FavEntry)) (sched : List Int),
      ∃ l, (runPolls cfg polls sched).1 = sched ++ l
  | [], sched => ⟨[], by simp [runPolls]⟩
  | (now, favs) :: rest, sched => by
    rcases pollOnce_sched_append cfg now favs sched with ⟨l₁, h₁⟩
    rcases runPolls_sched_append cfg rest (pollOnce cfg now favs sched).1 with ⟨l₂, h₂⟩
    refine ⟨l₁ ++ l₂, ?_⟩
    show (runPolls cfg rest (pollOnce cfg now favs sched).1).1 = sched ++ (l₁ ++ l₂)
    rw [h₂, h₁]
    simp

/-- Helper: an item already in the scheduled set receives no tasks during a
poll and is not re-added. -/
theorem pollOnce_skip (cfg : SniperConfig) (now : Int) (i : Int) :
    ∀ (favs : List FavEntry) (sched : List Int), i ∈ sched →
      bidCount i (pollOnce cfg now favs sched).2 = 0 ∧
      alertCount i (pollOnce cfg now favs sched).2 = 0 ∧
      (pollOnce cfg now favs sched).1.count i = sched.count i
  | [], sched, _ => ⟨rfl, rfl, rfl⟩
  | f :: rest, sched, h => by
    by_cases hmem : f.itemId ∈ sched
    · rw [pollOnce, if_pos hmem]
      exact pollOnce_skip cfg now i rest sched h
    · have hne : f.itemId ≠ i := fun he => hmem (he ▸ h)
      by_cases hg : scheduling_guard cfg now f.endTime = true
      · rw [pollOnce, if_neg hmem, if_pos hg]
        have hrec := pollOnce_skip cfg now i rest (sched ++ [f.itemId])
          (List.mem_append.mpr (Or.inl h))
        refine ⟨?_, ?_, ?_⟩
        · show bidCount i (schedule_item_effects cfg now f ++ default_note_effects cfg f ++
            (pollOnce cfg now rest (sched ++ [f.itemId])).2) = 0
          rw [bidCount_append, bidCount_append, bidCount_schedule_item, if_neg hne,
            bidCount_default_note, hrec.1]
        · show alertCount i (schedule_item_effects cfg now f ++ default_note_effects cfg f ++
            (pollOnce cfg now rest (sched ++ [f.itemId])).2) = 0
          rw [alertCount_append, alertCount_append, alertCount_schedule_item_ne cfg now f i hne,
            alertCount_default_note, hrec.2.1]
        · show (pollOnce cfg now rest (sched ++ [f.itemId])).1.count i = sched.count i
          rw [hrec.2.2, List.count_append]
          simp [List.count_cons, Ne.symm hne]
      · rw [pollOnce, if_neg hmem, if_neg hg]
        have hrec := pollOnce_skip cfg now i rest sched h
        refine ⟨?_, ?_, ?_⟩
        · show bidCount i (default_note_effects cfg f ++ (pollOnce cfg now rest sched).2) = 0
          rw [bidCount_append, bidCount_default_note, hrec.1]
        · show alertCount i (default_note_effects cfg f ++ (pollOnce cfg now rest sched).2) = 0
          rw [alertCount_append, alertCount_default_note, hrec.2.1]
        · exact hrec.2.2

/-- Helper: an item outside the scheduled set is added exactly as often as a
bid task is dispatched for it (at most once per poll), its alert tasks
number at most the configured offsets, and a poll that leaves it
unscheduled gives it no alert task. -/
theorem pollOnce_new (cfg : SniperConfig) (now : Int) (i : Int) :
    ∀ (favs : List FavEntry) (sched : List Int), i ∉ sched →
      (pollOnce cfg now favs sched).1.count i = bidCount i (pollOnce cfg now favs sched).2 ∧
      bidCount i (pollOnce cfg now favs sched).2 ≤ 1 ∧
      alertCount i (pollOnce cfg now favs sched).2 ≤ cfg.alert_time_deltas.length ∧
      (i ∉ (pollOnce cfg now favs sched).1 →
        alertCount i (pollOnce cfg now favs sched).2 = 0)
  | [], sched, h => by
    refine ⟨?_, ?_, ?_, ?_⟩
    · show sched.count i = 0
      exact List.count_eq_zero.mpr h
    · exact Nat.zero_le _
    · exact Nat.zero_le _
    · intro _
      rfl
  | f :: rest, sched, h => by
    by_cases hmem : f.itemId ∈ sched
    · rw [pollOnce, if_pos hmem]
      exact pollOnce_new cfg now i rest sched h
    · by_cases hg : scheduling_guard cfg now f.endTime = true
      · rw [pollOnce, if_neg hmem, if_pos hg]
        by_cases hfi : f.itemId = i
        · have hmm : i ∈ sched ++ [f.itemId] := List.mem_append.mpr (Or.inr (by simp [hfi]))
          have hrec := pollOnce_skip cfg now i rest (sched ++ [f.itemId]) hmm
          have hmemres : i ∈ (pollOnce cfg now rest (sched ++ [f.itemId])).1 := by
            rcases pollOnce_sched_append cfg now rest (sched ++ [f.itemId]) with ⟨l, hl⟩
            rw [hl]
            exact List.mem_append.mpr (Or.inl hmm)
          refine ⟨?_, ?_, ?_, ?_⟩
          · show (pollOnce cfg now rest (sched ++ [f.itemId])).1.count i =
              bidCount i (schedule_item_effects cfg now f ++ default_note_effects cfg f ++
                (pollOnce cfg now rest (sched ++ [f.itemId])).2)
            rw [hrec.2.2, bidCount_append, bidCount_append, bidCount_schedule_item, if_pos hfi,
              bidCount_default_note, hrec.1, List.count_append, List.count_eq_zero.mpr h,
              List.count_cons]
            simp [hfi]
          · show bidCount i (schedule_item_effects cfg now f ++ default_note_effects cfg f ++
              (pollOnce cfg now rest (sched ++ [f.itemId])).2) ≤ 1
            rw [bidCount_append, bidCount_append, bidCount_schedule_item, if_pos hfi,
              bidCount_default_note, hrec.1]
          · show alertCount i (schedule_item_effects cfg now f ++ default_note_effects cfg f ++
              (pollOnce cfg now rest (sched ++ [f.itemId])).2) ≤ cfg.alert_time_deltas.length
            rw [alertCount_append, alertCount_append, alertCount_default_note, hrec.2.1]
            simpa using alertCount_schedule_item_le cfg now f i
          · intro hni
            exact absurd hmemres hni
        · have hni : i ∉ sched ++ [f.itemId] := by
            intro hin
            rcases List.mem_append.mp hin with h' | h'
            · exact h h'
            · exact hfi (List.mem_singleton.mp h').symm
          have hrec := pollOnce_new cfg now i rest (sched ++ [f.itemId]) hni
          refine ⟨?_, ?_, ?_, ?_⟩
          · show (pollOnce cfg now rest (sched ++ [f.itemId])).1.count i =
              bidCount i (schedule_item_effects cfg now f ++ default_note_effects cfg f ++
                (pollOnce cfg now rest (sched ++ [f.itemId])).2)
            rw [bidCount_append, bidCount_append, bidCount_schedule_item, if_neg hfi,
              bidCount_default_note]
            simpa using hrec.1
          · show bidCount i (schedule_item_effects cfg now f ++ default_note_effects cfg f ++
              (pollOnce cfg now rest (sched ++ [f.itemId])).2) ≤ 1
            rw [bidCount_append, bidCount_append, bidCount_schedule_item, if_neg hfi,
              bidCount_default_note]
            simpa using hrec.2.1
          · show alertCount i (schedule_item_effects cfg now f ++ default_note_effects cfg f ++
              (pollOnce cfg now rest (sched ++ [f.itemId])).2) ≤ cfg.alert_time_deltas.length
            rw [alertCount_append, alertCount_append, alertCount_schedule_item_ne cfg now f i hfi,
              alertCount_default_note]
            simpa using hrec.2.2.1
          · intro hnotin
            show alertCount i (schedule_item_effects cfg now f ++ default_note_effects cfg f ++
              (pollOnce cfg now rest (sched ++ [f.itemId])).2) = 0
            rw [alertCount_append, alertCount_append, alertCount_schedule_item_ne cfg now f i hfi,
              alertCount_default_note, hrec.2.2.2 hnotin]
      · rw [pollOnce, if_neg hmem, if_neg hg]
        have hrec := pollOnce_new cfg now i rest sched h
        refine ⟨?_, ?_, ?_, ?_⟩
        · show (pollOnce cfg now rest sched).1.count i =
            bidCount i (default_note_effects cfg f ++ (pollOnce cfg now rest sched).2)
          rw [bidCount_append, bidCount_default_note]
          simpa using hrec.1
        · show bidCount i (default_note_effects cfg f ++ (pollOnce cfg now rest sched).2) ≤ 1
          rw [bidCount_append, bidCount_default_note]
          simpa using hrec.2.1
        · show alertCount i (default_note_effects cfg f ++ (pollOnce cfg now rest sched).2) ≤
            cfg.alert_time_deltas.length
          rw [alertCount_append, alertCount_default_note]
          simpa using hrec.2.2.1
        · intro hnotin
          show alertCount i (default_note_effects cfg f ++ (pollOnce cfg now rest sched).2) = 0
          rw [alertCount_append, alertCount_default_note, hrec.2.2.2 hnotin]

/-- Helper: an item already scheduled receives no tasks during any later
poll and is never re-added. -/
theorem runPolls_skip (cfg : SniperConfig) (i : Int) :
    ∀ (polls : List (Int × List FavEntry)) (sched : List Int), i ∈ sched →
      bidCount i (runPolls cfg polls sched).2 = 0 ∧
      alertCount i (runPolls cfg polls sched).2 = 0 ∧
      (runPolls cfg polls sched).1.count i = sched.count i
  | [], sched, _ => ⟨rfl, rfl, rfl⟩
  | (now, favs) :: rest, sched, h => by
    have hp := pollOnce_skip cfg now i favs sched h
    have hmem : i ∈ (pollOnce cfg now favs sched).1 := by
      rcases pollOnce_sched_append cfg now favs sched with ⟨l, hl⟩
      rw [hl]
      exact List.mem_append.mpr (Or.inl h)
    have hrec := runPolls_skip cfg i rest (pollOnce cfg now favs sched).1 hmem
    refine ⟨?_, ?_, ?_⟩
    · show bidCount i ((pollOnce cfg now favs sched).2 ++
        (runPolls cfg rest (pollOnce cfg now favs sched).1).2) = 0
      rw [bidCount_append, hp.1, hrec.1]
    · show alertCount i ((pollOnce cfg now favs sched).2 ++
        (runPolls cfg rest (pollOnce cfg now favs sched).1).2) = 0
      rw [alertCount_append, hp.2.1, hrec.2.1]
    · show (runPolls cfg rest (pollOnce cfg now favs sched).1).1.count i = sched.count i
      rw [hrec.2.2, hp.2.2]

/-- Helper: across a whole run, an initially unscheduled item ends with a
scheduled-set multiplicity equal to its total bid-task count, at most one
bid task, and at most one alert task per configured offset. -/
theorem runPolls_new (cfg : SniperConfig) (i : Int) :
    ∀ (polls : List (Int × List FavEntry)) (sched : List Int), i ∉ sched →
      (runPolls cfg polls sched).1.count i = bidCount i (runPolls cfg polls sched).2 ∧
      bidCount i (runPolls cfg polls sched).2 ≤ 1 ∧
      alertCount i (runPolls cfg polls sched).2 ≤ cfg.alert_time_deltas.length
  | [], sched, h => by
    refine ⟨?_, Nat.zero_le _, Nat.zero_le _⟩
    show sched.count i = 0
    exact List.count_eq_zero.mpr h
  | (now, favs) :: rest, sched, h => by
    have hp := pollOnce_new cfg now i favs sched h
    by_cases hs : i ∈ (pollOnce cfg now favs sched).1
    · have hrec := runPolls_skip cfg i rest (pollOnce cfg now favs sched).1 hs
      have hcount1 : (pollOnce cfg now favs sched).1.count i = 1 := by
        have hpos : 0 < (pollOnce cfg now favs sched).1.count i := List.count_pos_iff.mpr hs
        have hle : (pollOnce cfg now favs sched).1.count i ≤ 1 := hp.1 ▸ hp.2.1
        omega
      have hbid1 : bidCount i (pollOnce cfg now favs sched).2 = 1 := by
        rw [← hp.1, hcount1]
      refine ⟨?_, ?_, ?_⟩
      · show (runPolls cfg rest (pollOnce cfg now favs sched).1).1.count i =
          bidCount i ((pollOnce cfg now favs sched).2 ++
            (runPolls cfg rest (pollOnce cfg now favs sched).1).2)
        rw [bidCount_append, hrec.2.2, hcount1, hbid1, hrec.1]
      · show bidCount i ((pollOnce cfg now favs sched).2 ++
          (runPolls cfg rest (pollOnce cfg now favs sched).1).2) ≤ 1
        rw [bidCount_append, hbid1, hrec.1]
      · show alertCount i ((pollOnce cfg now favs sched).2 ++
          (runPolls cfg rest (pollOnce cfg now favs sched).1).2) ≤
            cfg.alert_time_deltas.length
        rw [alertCount_append, hrec.2.1]
        simpa using hp.2.2.1
    · have hbid0 : bidCount i (pollOnce cfg now favs sched).2 = 0 := by
        rw [← hp.1]
        exact List.count_eq_zero.mpr hs
      have halert0 : alertCount i (pollOnce cfg now favs sched).2 = 0 := hp.2.2.2 hs
      have hrec := runPolls_new cfg i rest (pollOnce cfg now favs sched).1 hs
      refine ⟨?_, ?_, ?_⟩
      · show (runPolls cfg rest (pollOnce cfg now favs sched).1).1.count i =
          bidCount i ((pollOnce cfg now favs sched).2 ++
            (runPolls cfg rest (pollOnce cfg now favs sched).1).2)
        rw [bidCount_append, hbid0]
        simpa using hrec.1
      · show bidCount i ((pollOnce cfg now favs sched).2 ++
          (runPolls cfg rest (pollOnce cfg now favs sched).1).2) ≤ 1
        rw [bidCount_append, hbid0]
        simpa using hrec.2.1
      · show alertCount i ((pollOnce cfg now favs sched).2 ++
          (runPolls cfg rest (pollOnce cfg now favs sched).1).2) ≤
            cfg.alert_time_deltas.length
        rw [alertCount_append, halert0]
        simpa using hrec.2.2

/-- C5: across any run of polls, the scheduled set only ever grows; an item
already scheduled receives no further alert or bid tasks on any later poll;
and an initially unscheduled item appears in the set at most once, receives
at most one bid task and at most one alert task per configured offset over
the whole run, and is in the final set exactly when its (single) bid task
was dispatched. -/
theorem C5_scheduled_once (cfg : SniperConfig) (polls : List (Int × List FavEntry))
    (sched₀ : List Int) (i : Int) :
    (∃ l, (runPolls cfg polls sched₀).1 = sched₀ ++ l) ∧
    (i ∈ sched₀ →
      bidCount i (runPolls cfg polls sched₀).2 = 0 ∧
      alertCount i (runPolls cfg polls sched₀).2 = 0 ∧
      (runPolls cfg polls sched₀).1.count i = sched₀.count i) ∧
    (i ∉ sched₀ →
      (runPolls cfg polls sched₀).1.count i ≤ 1 ∧
      bidCount i (runPolls cfg polls sched₀).2 ≤ 1 ∧
      alertCount i (runPolls cfg polls sched₀).2 ≤ cfg.alert_time_deltas.length ∧
      (i ∈ (runPolls cfg polls sched₀).1 ↔
        bidCount i (runPolls cfg polls sched₀).2 = 1)) := by
  refine ⟨runPolls_sched_append cfg polls sched₀, runPolls_skip cfg i polls sched₀, ?_⟩
  intro h
  have hn := runPolls_new cfg i polls sched₀ h
  refine ⟨hn.1 ▸ hn.2.1, hn.2.1, hn.2.2, ?_⟩
  rw [← hn.1]
  constructor
  · intro hm
    have hpos : 0 < (runPolls cfg polls sched₀).1.count i := List.count_pos_iff.mpr hm
    have hle : (runPolls cfg polls sched₀).1.count i ≤ 1 := hn.1 ▸ hn.2.1
    omega
  · intro hone
    exact List.count_pos_iff.mp (by omega)

/-- Witness for C5: two polls both seeing item 1 schedule it once and
dispatch its tasks once, and an item pre-marked scheduled gets nothing. -/
theorem C5_scheduled_once_witness :
    (∃ l, (runPolls cfgA pollsA []).1 = [] ++ l) ∧
    ((runPolls cfgA pollsA []).1.count 1 ≤ 1 ∧
      bidCount 1 (runPolls cfgA pollsA []).2 ≤ 1 ∧
      alertCount 1 (runPolls cfgA pollsA []).2 ≤ cfgA.alert_time_deltas.length ∧
      (1 ∈ (runPolls cfgA pollsA []).1 ↔ bidCount 1 (runPolls cfgA pollsA []).2 = 1)) ∧
    (bidCount 1 (runPolls cfgA pollsA [1]).2 = 0 ∧
      alertCount 1 (runPolls cfgA pollsA [1]).2 = 0 ∧
      (runPolls cfgA pollsA [1]).1.count 1 = List.count 1 [1]) :=
  ⟨(C5_scheduled_once cfgA pollsA [] 1).1,
   (C5_scheduled_once cfgA pollsA [] 1).2.2 (by decide),
   (C5_scheduled_once cfgA pollsA [1] 1).2.1 (by decide)⟩

/-- C8: for an unscheduled entry that passes the lookahead guard, a poll
skips exactly the alert offsets whose execution instants are past, always
dispatches exactly one bid task at `endTime - bidOffset` even when that
instant is past, and a past-due task sleeps a clamped non-negative delay,
so it fires immediately at `now` rather than being dropped. -/
theorem C8_past_due_bid_fires (cfg : SniperConfig) (now : Int) (f : FavEntry)
    (sched : List Int) (h1 : f.itemId ∉ sched)
    (h2 : scheduling_guard cfg now f.endTime = true) :
    (∀ d ∈ cfg.alert_time_deltas, f.endTime - d < now →
      Effect.alert f.itemId (f.endTime - d) ∉ (pollOnce cfg now [f] sched).2) ∧
    (∀ d ∈ cfg.alert_time_deltas, ¬(f.endTime - d < now) →
      Effect.alert f.itemId (f.endTime - d) ∈ (pollOnce cfg now [f] sched).2) ∧
    bidCount f.itemId (pollOnce cfg now [f] sched).2 = 1 ∧
    Effect.bid f.itemId (f.endTime - cfg.bid_time_delta) ∈ (pollOnce cfg now [f] sched).2 ∧
    (f.endTime - cfg.bid_time_delta < now →
      task_fire_time now (f.endTime - cfg.bid_time_delta) = now) ∧
    now ≤ task_fire_time now (f.endTime - cfg.bid_time_delta) := by
  have heq : (pollOnce cfg now [f] sched).2 =
      schedule_item_effects cfg now f ++ default_note_effects cfg f := by
    rw [pollOnce, if_neg h1, if_pos h2]
    show schedule_item_effects cfg now f ++ default_note_effects cfg f ++
      (pollOnce cfg now [] (sched ++ [f.itemId])).2 = _
    simp [pollOnce]
  refine ⟨?_, ?_, ?_, ?_, ?_, ?_⟩
  · intro d _ hpast hin
    rw [heq] at hin
    rcases List.mem_append.mp hin with hin | hin
    · unfold schedule_item_effects at hin
      rcases List.mem_append.mp hin with hin | hin
      · rcases List.mem_map.mp hin with ⟨d', hd', he⟩
        have hdd : d' = d := by
          have := (Effect.alert.injEq _ _ _ _).mp he
          omega
        subst hdd
        have := List.mem_filter.mp hd'
        simp only [Bool.not_eq_true', decide_eq_false_iff_not] at this
        exact this.2 hpast
      · simp at hin
    · unfold default_note_effects at hin
      cases hdn : cfg.default_note with
      | none =>
        rw [hdn] at hin
        simp at hin
      | some dn =>
        rw [hdn] at hin
        split at hin
        · simp at hin
        · simp at hin
  · intro d hd hfuture
    rw [heq]
    refine List.mem_append.mpr (Or.inl ?_)
    unfold schedule_item_effects
    refine List.mem_append.mpr (Or.inl ?_)
    refine List.mem_map.mpr ⟨d, ?_, rfl⟩
    refine List.mem_filter.mpr ⟨hd, ?_⟩
    simp [hfuture]
  · rw [heq, bidCount_append, bidCount_schedule_item, if_pos rfl, bidCount_default_note]
  · rw [heq]
    refine List.mem_append.mpr (Or.inl ?_)
    unfold schedule_item_effects
    exact List.mem_append.mpr (Or.inr (by simp))
  · intro hpast
    unfold task_fire_time schedule_task_sleep
    omega
  · unfold task_fire_time schedule_task_sleep
    omega

/-- Witness for C8: entry ending at t = 20 with offsets 100 s and 10 s and
bid offset 30 s at now = 0 — the 100 s alert is past-due and skipped, the
10 s alert is dispatched, and the single past-due bid task fires at 0. -/
theorem C8_past_due_bid_fires_witness :
    Effect.alert 1 (20 - 100) ∉ (pollOnce cfgB 0 [favB] []).2 ∧
    Effect.alert 1 (20 - 10) ∈ (pollOnce cfgB 0 [favB] []).2 ∧
    bidCount 1 (pollOnce cfgB 0 [favB] []).2 = 1 ∧
    Effect.bid 1 (20 - 30) ∈ (pollOnce cfgB 0 [favB] []).2 ∧
    task_fire_time 0 (20 - 30) = 0 ∧
    (0 : Int) ≤ task_fire_time 0 (20 - 30) := by
  have h := C8_past_due_bid_fires cfgB 0 favB [] (by decide) (by decide)
  exact ⟨h.1 100 (by decide) (by decide), h.2.1 10 (by decide) (by decide), h.2.2.1,
    h.2.2.2.1, h.2.2.2.2.1 (by decide), h.2.2.2.2.2⟩

end SGW
